import Mathlib

/-
Verification of the AlertIQ voice-distress service
(`app/distress.py` and `app/main.py`).

Strings are modelled as `List Char`.  Python's substring test `p in t`
is `p <:+: t` (`List.IsInfix`), and `str.lower` is modelled per
character by `lowerChar`, which realises Python's lowercasing on the
ASCII range (the only characters occurring in the fixed phrase list and
in the reasoning below).
-/

namespace AlertIQ

/-- Python `str.lower`, per character, on the ASCII range: an uppercase
letter (code 65–90) is shifted by 32, every other character is kept. -/
def lowerChar (c : Char) : Char :=
  if 65 ≤ c.toNat ∧ c.toNat ≤ 90 then Char.ofNat (c.toNat + 32) else c

/-- Python `str.lower` on a whole string. -/
def lowerStr (s : List Char) : List Char := s.map lowerChar

/-- The literal phrase list of `distress.py`, in source order, casing
preserved (the last two entries are mixed-case in the source). -/
def distress_phrases : List (List Char) :=
  ["help".toList,
   "save me".toList,
   "i need help".toList,
   "please help".toList,
   "i am in danger".toList,
   "someone is attacking me".toList,
   "someone is following me".toList,
   "i am scared".toList,
   "call the police".toList,
   "emergency".toList,
   "Save".toList,
   "Someone is chasing me".toList]

/-- The classifier of `distress.py`: lowercase the input, then test each
listed phrase for substring occurrence (`any(phrase in text ...)`). -/
def is_unsafe (text : List Char) : Bool :=
  distress_phrases.any fun phrase => decide (phrase <:+: lowerStr text)

/-- The phrase list with the two mixed-case entries removed. -/
def distress_phrases_pruned : List (List Char) :=
  ["help".toList,
   "save me".toList,
   "i need help".toList,
   "please help".toList,
   "i am in danger".toList,
   "someone is attacking me".toList,
   "someone is following me".toList,
   "i am scared".toList,
   "call the police".toList,
   "emergency".toList]

/-- The classifier rebuilt over the pruned phrase list, used to compare
against ` is_unsafe` (refinement claim about the dead entries). -/
def is_unsafe_pruned (text : List Char) : Bool :=
  distress_phrases_pruned.any fun phrase => decide (phrase <:+: lowerStr text)

/-- Python whitespace predicate for `str.strip` (ASCII range). -/
def isPySpace (c : Char) : Bool :=
  c == ' ' || c == '\t' || c == '\n' || c == '\x0B' || c == '\x0C' || c == '\r'

/-- Python `str.strip`: drop leading and trailing whitespace. -/
def pyStrip (s : List Char) : List Char :=
  ((s.dropWhile isPySpace).reverse.dropWhile isPySpace).reverse

/-- The JSON body returned by the `/analyze-voice` handler. -/
structure AnalysisResponse where
  flag_unsafe : Bool
  english_text : List Char
  trigger : List Char
  deriving DecidableEq

/-- Response construction of `main.py` after a successful transcription
returning `rawText`: strip, classify, and tag the trigger. -/
def analyze_response (rawText : List Char) : AnalysisResponse :=
  let english_text := pyStrip rawText
  let u := is_unsafe english_text
  ⟨u, english_text, if u then "VOICE_HELP".toList else "NONE".toList⟩

/-- Failure modes of the handler body: `temp.write`, model loading, and
`model.transcribe` may each raise. -/
inductive HandlerErr where
  | writeFail
  | loadFail
  | transcribeFail
  deriving DecidableEq

/-- One request's environment: which steps succeed, and the text the
transcription call returns when it succeeds. -/
structure HandlerWorld where
  write_ok : Bool
  load_ok : Bool
  transcribe_ok : Bool
  transcript : List Char
  deriving DecidableEq

/-- The `analyze_voice` handler of `main.py` as a state transformer.
The temporary file is created (`delete=False`, so it stays on disk),
the try-block runs until its first failing step or returns the
response, and the `finally` block unlinks the file when it exists.
The result is the handler's outcome paired with whether the temporary
file still exists on disk afterwards. -/
def analyze_voice_run (w : HandlerWorld) : Except HandlerErr AnalysisResponse × Bool :=
  let tempFileOnDisk := true
  let body : Except HandlerErr AnalysisResponse × Bool :=
    if w.write_ok = false then (Except.error HandlerErr.writeFail, tempFileOnDisk)
    else if w.load_ok = false then (Except.error HandlerErr.loadFail, tempFileOnDisk)
    else if w.transcribe_ok = false then (Except.error HandlerErr.transcribeFail, tempFileOnDisk)
    else (Except.ok (analyze_response w.transcript), tempFileOnDisk)
  (body.1, if body.2 then false else body.2)

/-- Abstract stand-in for the external whisper model object. -/
abbrev Model := Nat

/-- The lazy singleton `get_model` of `main.py`, under sequential
execution.  The state is the global `model` variable paired with a count
of how many times `whisper.load_model` has run; `loadedModel` is the
object that call returns. -/
def get_model (loadedModel : Model) (st : Option Model × Nat) : Model × (Option Model × Nat) :=
  match st with
  | (none, loads) => (loadedModel, (some loadedModel, loads + 1))
  | (some m, loads) => (m, (some m, loads))

/-- State of the global after `n` sequential calls to `get_model`,
starting from the initial state `model = None`, zero loads. -/
def run_get_model (loadedModel : Model) : Nat → Option Model × Nat
  | 0 => (none, 0)
  | n + 1 => (get_model loadedModel (run_get_model loadedModel n)).2

/-! ### Helper lemmas -/

theorem toNat_ofNat_of_lt (n : Nat) (h : n < 55296) : (Char.ofNat n).toNat = n := by
  simp [Char.ofNat, Nat.isValidChar, h, Char.ofNatAux, Char.toNat, UInt32.toNat]

theorem lowerChar_not_upper (c : Char) :
    ¬ (65 ≤ (lowerChar c).toNat ∧ (lowerChar c).toNat ≤ 90) := by
  unfold lowerChar
  by_cases h : 65 ≤ c.toNat ∧ c.toNat ≤ 90
  · rw [if_pos h]
    rw [toNat_ofNat_of_lt (c.toNat + 32) (by omega)]
    omega
  · rw [if_neg h]
    exact h

theorem lowerChar_eq_self (c : Char) (h : ¬ (65 ≤ c.toNat ∧ c.toNat ≤ 90)) :
    lowerChar c = c := by
  simp only [lowerChar, if_neg h]

theorem lowerChar_idem (c : Char) : lowerChar (lowerChar c) = lowerChar c :=
  lowerChar_eq_self _ (lowerChar_not_upper c)

theorem lowerStr_idem (s : List Char) : lowerStr (lowerStr s) = lowerStr s := by
  induction s with
  | nil => rfl
  | cons a s ih =>
    simp only [lowerStr, List.map_cons] at ih ⊢
    rw [lowerChar_idem, ih]

theorem lowerStr_isInfix {p l : List Char} (h : p <:+: l) :
    lowerStr p <:+: lowerStr l := by
  obtain ⟨s, t, rfl⟩ := h
  exact ⟨lowerStr s, lowerStr t, by simp [lowerStr]⟩

theorem isInfix_append_right (p l r : List Char) (h : p <:+: l) : p <:+: l ++ r := by
  obtain ⟨s, t, rfl⟩ := h
  exact ⟨s, t ++ r, by simp⟩

theorem isInfix_append_left (p l r : List Char) (h : p <:+: l) : p <:+: r ++ l := by
  obtain ⟨s, t, rfl⟩ := h
  exact ⟨r ++ s, t, by simp⟩

theorem any_phrase_iff (s : List Char) :
    is_unsafe s = true ↔ ∃ p ∈ distress_phrases, p <:+: lowerStr s := by
  simp [ is_unsafe]

theorem no_upper_in_lowerStr (s : List Char) (c : Char) (hc : c ∈ lowerStr s) :
    ¬ (65 ≤ c.toNat ∧ c.toNat ≤ 90) := by
  simp only [lowerStr, List.mem_map] at hc
  obtain ⟨a, _, rfl⟩ := hc
  exact lowerChar_not_upper a

theorem save_dead (s : List Char) : ¬ ("Save".toList <:+: lowerStr s) := by
  intro h
  exact no_upper_in_lowerStr s 'S' (h.mem (by decide)) (by decide)

theorem someone_dead (s : List Char) :
    ¬ ("Someone is chasing me".toList <:+: lowerStr s) := by
  intro h
  exact no_upper_in_lowerStr s 'S' (h.mem (by decide)) (by decide)

theorem run_get_model_succ (lo : Model) (n : Nat) :
    run_get_model lo (n + 1) = (some lo, 1) := by
  induction n with
  | zero => rfl
  | succ n ih =>
    show (get_model lo (run_get_model lo (n + 1))).2 = (some lo, 1)
    rw [ih]
    rfl

/-! ### Claims -/

/-- C1 counterexample: the phrase `"Save"` is in the list and occurs
case-insensitively in the input `"Save"`, yet ` is_unsafe "Save"` is
false — the mixed-case entry never matches the lowercased input. -/
theorem case_insensitive_superset_counterexample :
    "Save".toList ∈ distress_phrases ∧
    lowerStr ("Save".toList) <:+: lowerStr ("Save".toList) ∧
    is_unsafe ("Save".toList) = false :=
  ⟨by decide, by decide, by decide⟩

/-- C1 (amended): for every phrase `p` of the list that is itself
entirely lowercase (which excludes the two mixed-case entries), if `p`
occurs case-insensitively in `s` then ` is_unsafe s` is true. -/
theorem lowercase_phrase_sound (s p : List Char) (hp : p ∈ distress_phrases)
    (hlow : lowerStr p = p) (hsub : lowerStr p <:+: lowerStr s) :
    is_unsafe s = true := by
  rw [any_phrase_iff]
  rw [hlow] at hsub
  exact ⟨p, hp, hsub⟩

theorem lowercase_phrase_sound_witness :
    ("help".toList ∈ distress_phrases ∧
      lowerStr ("help".toList) = "help".toList ∧
      lowerStr ("help".toList) <:+: lowerStr ("HELP ME".toList)) ∧
    is_unsafe ("HELP ME".toList) = true :=
  ⟨⟨by decide, by decide, by decide⟩,
    lowercase_phrase_sound ("HELP ME".toList) ("help".toList)
      (by decide) (by decide) (by decide)⟩

/-- C2: ` is_unsafe s` is true exactly when some phrase of the literal
list, as written in the source, occurs as a contiguous substring of the
lowercased input, and false otherwise. -/
theorem is_unsafe_characterization (s : List Char) :
    ( is_unsafe s = true ↔ ∃ p ∈ distress_phrases, p <:+: lowerStr s) ∧
    ( is_unsafe s = false ↔ ¬ ∃ p ∈ distress_phrases, p <:+: lowerStr s) := by
  refine ⟨any_phrase_iff s, ?_⟩
  rw [← any_phrase_iff s]
  simp

/-- C3: the two mixed-case entries are dead — the classifier equals the
one over the pruned list, because a phrase containing an uppercase
letter is never a substring of the lowercased input. -/
theorem mixed_case_phrases_dead (s : List Char) :
    is_unsafe s = is_unsafe_pruned s ∧
    ¬ ("Save".toList <:+: lowerStr s) ∧
    ¬ ("Someone is chasing me".toList <:+: lowerStr s) := by
  refine ⟨?_, save_dead s, someone_dead s⟩
  have hs : decide ("Save".toList <:+: lowerStr s) = false :=
    decide_eq_false (save_dead s)
  have hc : decide ("Someone is chasing me".toList <:+: lowerStr s) = false :=
    decide_eq_false (someone_dead s)
  simp only [ is_unsafe, is_unsafe_pruned, distress_phrases, distress_phrases_pruned,
    List.any_cons, List.any_nil, hs, hc, Bool.or_false]

/-- C4: when writing, loading and transcription all succeed and the
transcription returns `w.transcript`, the handler answers `Except.ok`
with the stripped text, its classification, and the matching trigger
tag; the trigger is `"VOICE_HELP"` exactly when the flag is true. -/
theorem analyze_voice_success_response (w : HandlerWorld)
    (h1 : w.write_ok = true) (h2 : w.load_ok = true) (h3 : w.transcribe_ok = true) :
    (analyze_voice_run w).1 =
      Except.ok ⟨ is_unsafe (pyStrip w.transcript), pyStrip w.transcript,
        if is_unsafe (pyStrip w.transcript) then "VOICE_HELP".toList
        else "NONE".toList⟩ ∧
    ((analyze_response w.transcript).trigger = "VOICE_HELP".toList ↔
      is_unsafe (pyStrip w.transcript) = true) := by
  constructor
  · simp [analyze_voice_run, h1, h2, h3, analyze_response]
  · simp only [analyze_response]
    by_cases hu : is_unsafe (pyStrip w.transcript) = true
    · simp [hu]
    · simp only [Bool.not_eq_true] at hu
      simp only [hu, if_neg]
      constructor
      · intro hcontra
        exact absurd hcontra (by decide)
      · intro hcontra
        exact absurd hcontra (by decide)

theorem analyze_voice_success_response_witness :
    ((⟨true, true, true, "please help me now".toList⟩ : HandlerWorld).write_ok = true ∧
      (⟨true, true, true, "please help me now".toList⟩ : HandlerWorld).load_ok = true ∧
      (⟨true, true, true, "please help me now".toList⟩ : HandlerWorld).transcribe_ok = true) ∧
    ((analyze_voice_run ⟨true, true, true, "please help me now".toList⟩).1 =
      Except.ok ⟨ is_unsafe (pyStrip "please help me now".toList),
        pyStrip "please help me now".toList,
        if is_unsafe (pyStrip "please help me now".toList) then "VOICE_HELP".toList
        else "NONE".toList⟩ ∧
    ((analyze_response "please help me now".toList).trigger = "VOICE_HELP".toList ↔
      is_unsafe (pyStrip "please help me now".toList) = true)) :=
  ⟨⟨rfl, rfl, rfl⟩,
    analyze_voice_success_response ⟨true, true, true, "please help me now".toList⟩
      rfl rfl rfl⟩

/-- C5: on every execution path the temporary file is gone when the
handler finishes, and a transcription failure (with the earlier steps
succeeding) propagates as an error while the cleanup still runs. -/
theorem analyze_voice_temp_cleanup (w : HandlerWorld) :
    (analyze_voice_run w).2 = false ∧
    (w.write_ok = true → w.load_ok = true → w.transcribe_ok = false →
      (analyze_voice_run w).1 = Except.error HandlerErr.transcribeFail) := by
  constructor
  · by_cases h1 : w.write_ok = false <;>
      by_cases h2 : w.load_ok = false <;>
        by_cases h3 : w.transcribe_ok = false <;>
          simp [analyze_voice_run, h1, h2, h3]
  · intro h1 h2 h3
    simp [analyze_voice_run, h1, h2, h3]

theorem analyze_voice_temp_cleanup_witness :
    (analyze_voice_run ⟨true, true, false, "x".toList⟩).2 = false ∧
    (analyze_voice_run ⟨true, true, false, "x".toList⟩).1 =
      Except.error HandlerErr.transcribeFail :=
  ⟨(analyze_voice_temp_cleanup ⟨true, true, false, "x".toList⟩).1,
    (analyze_voice_temp_cleanup ⟨true, true, false, "x".toList⟩).2 rfl rfl rfl⟩

/-- C6: when no listed phrase occurs case-insensitively in `s`, the
classifier answers false. -/
theorem no_phrase_not_flagged (s : List Char)
    (h : ∀ p ∈ distress_phrases, ¬ (lowerStr p <:+: lowerStr s)) :
    is_unsafe s = false := by
  cases hb : is_unsafe s with
  | false => rfl
  | true =>
    exfalso
    obtain ⟨p, hp, hsub⟩ := (any_phrase_iff s).1 hb
    have h2 := lowerStr_isInfix hsub
    rw [lowerStr_idem] at h2
    exact h p hp h2

theorem no_phrase_not_flagged_witness :
    (∀ p ∈ distress_phrases, ¬ (lowerStr p <:+: lowerStr ("hello world".toList))) ∧
    is_unsafe ("hello world".toList) = false :=
  ⟨by decide, no_phrase_not_flagged ("hello world".toList) (by decide)⟩

/-- C7: the classifier is invariant under input casing: strings with
the same lowercasing classify alike, and lowercasing the input first
never changes the verdict. -/
theorem is_unsafe_case_invariant (s t : List Char) (h : lowerStr s = lowerStr t) :
    is_unsafe s = is_unsafe t ∧ is_unsafe s = is_unsafe (lowerStr s) := by
  have key : ∀ u : List Char, is_unsafe u = is_unsafe (lowerStr u) := by
    intro u
    simp only [ is_unsafe, lowerStr_idem]
  constructor
  · rw [key s, key t, h]
  · exact key s

theorem is_unsafe_case_invariant_witness :
    (lowerStr ("HELP ME".toList) = lowerStr ("help me".toList)) ∧
    ( is_unsafe ("HELP ME".toList) = is_unsafe ("help me".toList) ∧
      is_unsafe ("HELP ME".toList) = is_unsafe (lowerStr ("HELP ME".toList))) ∧
    is_unsafe ("help me".toList) = true :=
  ⟨by decide,
    is_unsafe_case_invariant ("HELP ME".toList) ("help me".toList) (by decide),
    by decide⟩

/-- C8: the empty string is not flagged, and the empty string is not
itself a listed phrase. -/
theorem empty_not_flagged :
    is_unsafe [] = false ∧ [] ∉ distress_phrases := by
  decide

/-- C9: under sequential execution the model is loaded exactly once:
after any positive number of calls the global holds the first loaded
instance and the load count is one, and a call on an already-set global
returns that instance and leaves the state unchanged. -/
theorem get_model_load_once (lo : Model) (n : Nat) (h : 1 ≤ n) :
    run_get_model lo n = (some lo, 1) ∧
    ∀ (m : Model) (k : Nat), get_model lo (some m, k) = (m, (some m, k)) := by
  constructor
  · obtain ⟨n, rfl⟩ : ∃ m, n = m + 1 := ⟨n - 1, by omega⟩
    exact run_get_model_succ lo n
  · intro m k
    rfl

theorem get_model_load_once_witness :
    run_get_model 7 3 = (some 7, 1) :=
  (get_model_load_once 7 3 (by decide)).1

/-- C10: flagging is monotone under concatenation on either side —
extending a flagged transcript never unflags it. -/
theorem is_unsafe_append_monotone (s t : List Char) (h : is_unsafe s = true) :
    is_unsafe (s ++ t) = true ∧ is_unsafe (t ++ s) = true := by
  obtain ⟨p, hp, hsub⟩ := (any_phrase_iff s).1 h
  have hl : lowerStr (s ++ t) = lowerStr s ++ lowerStr t := by simp [lowerStr]
  have hr : lowerStr (t ++ s) = lowerStr t ++ lowerStr s := by simp [lowerStr]
  constructor
  · rw [any_phrase_iff]
    refine ⟨p, hp, ?_⟩
    rw [hl]
    exact isInfix_append_right p (lowerStr s) (lowerStr t) hsub
  · rw [any_phrase_iff]
    refine ⟨p, hp, ?_⟩
    rw [hr]
    exact isInfix_append_left p (lowerStr s) (lowerStr t) hsub

theorem is_unsafe_append_monotone_witness :
    is_unsafe ("help".toList) = true ∧
    ( is_unsafe ("help".toList ++ " me now".toList) = true ∧
      is_unsafe (" me now".toList ++ "help".toList) = true) :=
  ⟨by decide,
    is_unsafe_append_monotone ("help".toList) (" me now".toList) (by decide)⟩

end AlertIQ
